import Mathlib

/-!
Verification of the scoring and leaderboard engine of the IPL prediction
contest tracker (`utils/scoring.py`, with its point rubric in `config.py`).

The engine is embedded shallowly: the pandas data frames become typed lists
of rows, the SQL tables become input lists, and each engine entry point
(`compute_match_scores`, `compute_meta_scores`, `overall_leaderboard`,
`weekly_winners`) becomes a pure Lean function of those inputs.  Pandas
operations are modelled by their documented semantics:

* `merge(..., how="left")` keeps every left row, attaching `none` where the
  right side has no match (the join keys are primary keys in the schema, so
  a key matches at most one right row, modelled with `List.find?`);
* `merge(..., how="outer")` produces one row per key in the union of both
  key sets, sorted lexicographically (per the pandas documentation of
  `how="outer"`), with `fillna(0)` turning the missing side into zeroes;
* `groupby(keys)` aggregates per distinct key, keys sorted ascending, and
  drops any row whose key tuple contains a null (`dropna=True` default);
* `sort_values` sorts by the given columns and directions; the engine's
  outputs are compared through sortedness and permutation properties, so
  the particular sorting algorithm is irrelevant; we use insertion sort,
  which the kernel can evaluate.

Strings are compared the way Python and pandas compare them: code point by
code point, lexicographically.  (Lean's built-in `String.lt` is the same
relation, but its `Decidable` instance is built on iterators that the
kernel cannot reduce, so we define an equivalent comparator by structural
recursion on the character list.)
-/

/-- Lexicographic comparison of character lists by code point, the order
Python uses to compare strings. -/
def charListLe : List Char → List Char → Bool
  | [], _ => true
  | _ :: _, [] => false
  | a :: as, b :: bs =>
    decide (a.toNat < b.toNat) || (a.toNat == b.toNat && charListLe as bs)

/-- Python-style string comparison (`a <= b` on code points). -/
def strLe (a b : String) : Bool :=
  charListLe a.data b.data

theorem charListLe_total : ∀ xs ys, charListLe xs ys = true ∨ charListLe ys xs = true
  | [], _ => Or.inl rfl
  | _ :: _, [] => Or.inr rfl
  | x :: xs, y :: ys => by
    rcases Nat.lt_trichotomy x.toNat y.toNat with h | h | h
    · exact Or.inl (by simp [charListLe, h])
    · rcases charListLe_total xs ys with ih | ih
      · exact Or.inl (by simp [charListLe, h, ih])
      · exact Or.inr (by simp [charListLe, h.symm, ih])
    · exact Or.inr (by simp [charListLe, h])

theorem charListLe_trans : ∀ xs ys zs, charListLe xs ys = true → charListLe ys zs = true →
    charListLe xs zs = true
  | [], _, _ => fun _ _ => rfl
  | x :: xs, [], _ => fun h _ => by simp [charListLe] at h
  | x :: xs, y :: ys, [] => fun _ h => by simp [charListLe] at h
  | x :: xs, y :: ys, z :: zs => by
    intro h1 h2
    simp only [charListLe, Bool.or_eq_true, Bool.and_eq_true, decide_eq_true_eq,
      beq_iff_eq] at h1 h2 ⊢
    rcases h1 with h1 | ⟨e1, r1⟩ <;> rcases h2 with h2 | ⟨e2, r2⟩
    · exact Or.inl (h1.trans h2)
    · exact Or.inl (e2 ▸ h1)
    · exact Or.inl (e1 ▸ h2)
    · exact Or.inr ⟨e1.trans e2, charListLe_trans xs ys zs r1 r2⟩

theorem charListLe_antisymm : ∀ xs ys, charListLe xs ys = true → charListLe ys xs = true →
    xs = ys
  | [], [] => fun _ _ => rfl
  | [], _ :: _ => fun _ h => by simp [charListLe] at h
  | _ :: _, [] => fun h _ => by simp [charListLe] at h
  | x :: xs, y :: ys => by
    intro h1 h2
    simp only [charListLe, Bool.or_eq_true, Bool.and_eq_true, decide_eq_true_eq,
      beq_iff_eq] at h1 h2
    rcases h1 with h1 | ⟨e1, r1⟩ <;> rcases h2 with h2 | ⟨e2, r2⟩
    · omega
    · omega
    · omega
    · exact congrArg₂ (· :: ·) (Char.ext (UInt32.ext e1)) (charListLe_antisymm xs ys r1 r2)

/-- The string comparison as a relation, used by the sorting steps. -/
@[reducible] def strLeR (a b : String) : Prop := strLe a b = true

instance : IsTotal String strLeR :=
  ⟨fun a b => charListLe_total a.data b.data⟩

instance : IsTrans String strLeR :=
  ⟨fun a b c => charListLe_trans a.data b.data c.data⟩

instance : IsAntisymm String strLeR :=
  ⟨fun a b h1 h2 => String.ext (charListLe_antisymm a.data b.data h1 h2)⟩

/-- Plain `≤` on `Nat`, named so the sort relations below can be composed. -/
@[reducible] def natLeR (a b : Nat) : Prop := a ≤ b

instance : IsTotal Nat natLeR := ⟨Nat.le_total⟩
instance : IsTrans Nat natLeR := ⟨fun _ _ _ => Nat.le_trans⟩
instance : IsAntisymm Nat natLeR := ⟨fun _ _ => Nat.le_antisymm⟩

/-- Plain `≤` on `Int`. -/
@[reducible] def intLeR (a b : Int) : Prop := a ≤ b

instance : IsTotal Int intLeR := ⟨Int.le_total⟩
instance : IsTrans Int intLeR := ⟨fun _ _ _ => Int.le_trans⟩
instance : IsAntisymm Int intLeR := ⟨fun _ _ => Int.le_antisymm⟩

/-- Lexicographic combination of an order on the first component with an
order on the second: strictly smaller first component, or equal first
components and related second components.  This is how pandas orders rows
when sorting or grouping by several columns. -/
@[reducible] def lexRel (r : α → α → Prop) (s : β → β → Prop) (p q : α × β) : Prop :=
  (r p.1 q.1 ∧ p.1 ≠ q.1) ∨ (p.1 = q.1 ∧ s p.2 q.2)

/-- The reversed relation, for columns sorted in descending order. -/
@[reducible] def flipR (r : α → α → Prop) (a b : α) : Prop := r b a

/-- Comparison of rows through a key function, as pandas compares rows by
the values in the sort columns. -/
@[reducible] def onKey (k : γ → α) (r : α → α → Prop) (a b : γ) : Prop := r (k a) (k b)

instance {r : α → α → Prop} {s : β → β → Prop} [IsTotal α r] [IsAntisymm α r]
    [IsTotal β s] : IsTotal (α × β) (lexRel r s) := by
  constructor
  intro p q
  by_cases h : p.1 = q.1
  · rcases IsTotal.total (r := s) p.2 q.2 with hs | hs
    · exact Or.inl (Or.inr ⟨h, hs⟩)
    · exact Or.inr (Or.inr ⟨h.symm, hs⟩)
  · rcases IsTotal.total (r := r) p.1 q.1 with hr | hr
    · exact Or.inl (Or.inl ⟨hr, h⟩)
    · exact Or.inr (Or.inl ⟨hr, fun e => h e.symm⟩)

instance {r : α → α → Prop} {s : β → β → Prop} [IsTrans α r] [IsAntisymm α r]
    [IsTrans β s] : IsTrans (α × β) (lexRel r s) := by
  constructor
  intro p q t hpq hqt
  rcases hpq with ⟨h1, n1⟩ | ⟨e1, s1⟩ <;> rcases hqt with ⟨h2, n2⟩ | ⟨e2, s2⟩
  · refine Or.inl ⟨Trans.trans h1 h2, fun e => ?_⟩
    exact n1 (antisymm h1 (e ▸ h2))
  · exact Or.inl ⟨e2 ▸ h1, e2 ▸ n1⟩
  · exact Or.inl ⟨e1 ▸ h2, fun e => n2 (e1.symm.trans e)⟩
  · exact Or.inr ⟨e1.trans e2, Trans.trans s1 s2⟩

instance {r : α → α → Prop} {s : β → β → Prop} [IsAntisymm α r]
    [IsAntisymm β s] : IsAntisymm (α × β) (lexRel r s) := by
  constructor
  intro p q hpq hqp
  rcases hpq with ⟨h1, n1⟩ | ⟨e1, s1⟩ <;> rcases hqp with ⟨h2, n2⟩ | ⟨e2, s2⟩
  · exact absurd (antisymm h1 h2) n1
  · exact absurd e2.symm n1
  · exact absurd e1.symm n2
  · exact Prod.ext e1 (antisymm s1 s2)

instance {r : α → α → Prop} [IsTotal α r] : IsTotal α (flipR r) :=
  ⟨fun a b => (IsTotal.total (r := r) b a).elim Or.inl Or.inr⟩

instance {r : α → α → Prop} [IsTrans α r] : IsTrans α (flipR r) :=
  ⟨fun a b c h1 h2 => IsTrans.trans (r := r) c b a h2 h1⟩

instance {r : α → α → Prop} [IsAntisymm α r] : IsAntisymm α (flipR r) :=
  ⟨fun _ _ h1 h2 => antisymm h2 h1⟩

instance {k : γ → α} {r : α → α → Prop} [IsTotal α r] : IsTotal γ (onKey k r) :=
  ⟨fun a b => IsTotal.total (r := r) (k a) (k b)⟩

instance {k : γ → α} {r : α → α → Prop} [IsTrans α r] : IsTrans γ (onKey k r) :=
  ⟨fun a b c h1 h2 => IsTrans.trans (r := r) (k a) (k b) (k c) h1 h2⟩

/-- The sorted list of distinct keys of a grouping step: pandas `groupby`
returns one group per distinct key, keys in ascending order. -/
def sortKeys (r : α → α → Prop) [DecidableRel r] [DecidableEq α] (l : List α) : List α :=
  List.insertionSort r l.dedup

theorem mem_sortKeys (r : α → α → Prop) [DecidableRel r] [DecidableEq α]
    {l : List α} {a : α} : a ∈ sortKeys r l ↔ a ∈ l := by
  unfold sortKeys
  rw [(List.perm_insertionSort r l.dedup).mem_iff, List.mem_dedup]

theorem sortKeys_congr (r : α → α → Prop) [DecidableRel r] [DecidableEq α]
    [IsTotal α r] [IsTrans α r] [IsAntisymm α r] {l l' : List α}
    (h : l.Perm l') : sortKeys r l = sortKeys r l' := by
  refine List.eq_of_perm_of_sorted ?_ (List.sorted_insertionSort r l.dedup)
    (List.sorted_insertionSort r l'.dedup)
  exact (List.perm_insertionSort r l.dedup).trans (h.dedup.trans
    (List.perm_insertionSort r l'.dedup).symm)

/-! ## Data model

The rows of the five tables the engine reads (`utils/db_pg.py` schema), as
the engine sees them through its SQL queries. -/

namespace IPL

/-- A row of `users` (`email TEXT PRIMARY KEY, name TEXT`); the engine
reads `SELECT email, name FROM users`. -/
structure User where
  email : String
  name : String
deriving DecidableEq, Repr

/-- A row of `fixtures` (`match_id INTEGER PRIMARY KEY, match_date TEXT,
team_a TEXT, team_b TEXT, week INTEGER`); `week` is nullable. -/
structure Fixture where
  match_id : Int
  match_date : String
  team_a : String
  team_b : String
  week : Option Int
deriving DecidableEq, Repr

/-- A row of `results` (`match_id INTEGER PRIMARY KEY, winner TEXT`). -/
structure ResultRow where
  match_id : Int
  winner : String
deriving DecidableEq, Repr

/-- A row of `predictions_match` (`(email, match_id)` primary key). -/
structure MatchPred where
  email : String
  match_id : Int
  predicted_winner : String
deriving DecidableEq, Repr

/-- The stored TEXT of a JSON-encoded team-list field of
`predictions_meta`, abstracted to the outcome of `json.loads`:

* `null` — SQL NULL or empty string; the code substitutes `"[]"`
  (`r["playoff_teams"] or "[]"`), which parses to the empty list;
* `jsonList ts` — text that parses as a JSON array of team names;
* `malformed` — text on which parsing to a set of team names raises
  (invalid JSON, or a JSON value `set(...)` cannot consume). -/
inductive StoredPayload where
  | null : StoredPayload
  | jsonList : List String → StoredPayload
  | malformed : StoredPayload
deriving DecidableEq, Repr

/-- A row of `predictions_meta` (`email TEXT PRIMARY KEY, playoff_teams
TEXT, finalists TEXT, champion TEXT`). -/
structure MetaRow where
  email : String
  playoff_teams : StoredPayload
  finalists : StoredPayload
  champion : Option String
deriving DecidableEq, Repr

/-- `set(json.loads(field or "[]"))` as a fallible parse: `none` exactly
when the parse raises. -/
def json_loads_teams : StoredPayload → Option (List String)
  | .null => some []
  | .jsonList ts => some ts
  | .malformed => none

/-- The scoring rubric of `config.py` (`POINTS`). -/
structure PointsConfig where
  match_winner : Nat
  playoff_team : Nat
  finalist : Nat
  champion : Nat
deriving DecidableEq, Repr

/-- `POINTS = {"match_winner": 5, "playoff_team": 10, "finalist": 15,
"champion": 20}` from `config.py`. -/
def POINTS : PointsConfig :=
  { match_winner := 5, playoff_team := 10, finalist := 15, champion := 20 }

/-! ## Match scoring (`compute_match_scores`) -/

/-- A fixture row as it enters the prediction merge: the engine selects
`fixtures[["match_id", "week", "winner"]]` from the frame produced by
`fixtures LEFT JOIN results` (`_load_baseframes`).  `winner` is `none`
when no result row exists for the fixture. -/
structure FixtureJoined where
  match_id : Int
  week : Option Int
  winner : Option String
deriving DecidableEq, Repr

/-- The `fixtures LEFT JOIN results ON r.match_id = f.match_id` of
`_load_baseframes`.  `results.match_id` is a primary key, so each fixture
matches at most one result row, found by `List.find?`.  (The SQL `ORDER BY
match_date, match_id` only fixes the frame's row order, which the
key-based merge below does not consult.) -/
def fixturesWithResults (fixtures : List Fixture) (results : List ResultRow) :
    List FixtureJoined :=
  fixtures.map (fun f =>
    { match_id := f.match_id, week := f.week,
      winner := (results.find? (fun r => r.match_id = f.match_id)).map (·.winner) })

/-- A row of the `compute_match_scores` output frame: the prediction's
columns, the joined `week`/`winner` (null when the prediction matched no
fixture or the fixture has no result), the computed `match_points`, and
the `name` attached from `users` (null when no user row matches). -/
structure ScoredRow where
  email : String
  match_id : Int
  predicted_winner : String
  week : Option Int
  winner : Option String
  match_points : Nat
  name : Option String
deriving DecidableEq, Repr

/-- `score_row` of `compute_match_scores`: 0 when `winner` is null
(`pd.isna`), else `POINTS["match_winner"]` on exact string equality. -/
def score_row (predicted_winner : String) (winner : Option String) : Nat :=
  match winner with
  | none => 0
  | some w => if predicted_winner = w then POINTS.match_winner else 0

/-- The output rows one prediction contributes to the left merge
`pred.merge(fixtures[["match_id", "week", "winner"]], on="match_id",
how="left")`: one row per fixture whose `match_id` matches, or a single
row with null `week`/`winner` when none matches (a left join keeps the
unmatched left row).  Each row gets its `score_row` points and the user
name left-merged from `users` on `email` (null when no user row matches;
when `users` is empty the source skips the merge and the frame has no name
column — all-null names model that). -/
def pred_rows (fr : List FixtureJoined) (users : List User) (p : MatchPred) :
    List ScoredRow :=
  let ms := fr.filter (fun f => f.match_id = p.match_id)
  let joined : List (Option Int × Option String) :=
    if ms.isEmpty then [(none, none)] else ms.map (fun f => (f.week, f.winner))
  joined.map (fun wv =>
    { email := p.email, match_id := p.match_id,
      predicted_winner := p.predicted_winner,
      week := wv.1, winner := wv.2,
      match_points := score_row p.predicted_winner wv.2,
      name := (users.find? (fun u => u.email = p.email)).map (·.name) })

/-- `compute_match_scores`: returns the empty frame when there are no
predictions; otherwise left-merges the predictions with the joined
fixtures on `match_id` (`fixtures.match_id` is a primary key, so a
matching key yields exactly one row in practice), applies `score_row`, and
attaches the user names. -/
def compute_match_scores (preds : List MatchPred) (fixtures : List Fixture)
    (results : List ResultRow) (users : List User) : List ScoredRow :=
  if preds.isEmpty then []
  else preds.flatMap (pred_rows (fixturesWithResults fixtures results) users)

/-! ## Meta scoring (`compute_meta_scores`) -/

/-- A row of the `compute_meta_scores` output frame
(`meta_scores[["email", "playoff_points", "finalist_points",
"champion_points", "meta_total"]]`). -/
structure MetaScore where
  email : String
  playoff_points : Nat
  finalist_points : Nat
  champion_points : Nat
  meta_total : Nat
deriving DecidableEq, Repr

/-- Python truthiness of the champion strings: `None` and `""` are falsy. -/
def truthy : Option String → Bool
  | none => false
  | some s => !(s == "")

/-- `calc_row` of `compute_meta_scores`.  Parsing either team list raises
inside the shared `try`, so a failure empties all three predicted values
(`set(), set(), None`).  `set(...)` deduplicates, so the sums count each
distinct correctly named team once; summing the constant point value over
the qualifying teams is that count times the value. -/
def calc_row (actual_playoffs actual_finalists : List String)
    (actual_champion : Option String) (r : MetaRow) : MetaScore :=
  let parsed : List String × List String × Option String :=
    match json_loads_teams r.playoff_teams, json_loads_teams r.finalists with
    | some ps, some fs => (ps.dedup, fs.dedup, r.champion)
    | _, _ => ([], [], none)
  let playoff_pts := (parsed.1.filter (fun t => t ∈ actual_playoffs)).length *
    POINTS.playoff_team
  let finalist_pts := (parsed.2.1.filter (fun t => t ∈ actual_finalists)).length *
    POINTS.finalist
  let champion_pts :=
    if truthy parsed.2.2 && truthy actual_champion && parsed.2.2 == actual_champion
    then POINTS.champion else 0
  { email := r.email, playoff_points := playoff_pts, finalist_points := finalist_pts,
    champion_points := champion_pts,
    meta_total := playoff_pts + finalist_pts + champion_pts }

/-- `compute_meta_scores`: the empty frame (with the output columns) when
there are no meta predictions, else one `calc_row` row per stored row.
The actual outcomes are read through `get_actual_meta` and may each be
unset (`None` → empty set / no champion). -/
def compute_meta_scores (meta : List MetaRow)
    (actual_playoffs actual_finalists : List String)
    (actual_champion : Option String) : List MetaScore :=
  if meta.isEmpty then [] else meta.map (calc_row actual_playoffs actual_finalists actual_champion)

/-! ## Leaderboard (`overall_leaderboard`) -/

/-- The per-user match-point sums
(`match_scores.groupby("email", as_index=False)["match_points"].sum()`):
one pair per distinct email, emails ascending (pandas `groupby` sorts its
keys), summing that user's `match_points`; the empty frame when there are
no match scores. -/
def match_agg (match_scores : List ScoredRow) : List (String × Nat) :=
  if match_scores.isEmpty then []
  else (sortKeys strLeR (match_scores.map (·.email))).map
    (fun e => (e, ((match_scores.filter (fun r => r.email = e)).map (·.match_points)).sum))

/-- A row of the leaderboard frame before ranking: the outer-merged and
zero-filled numeric columns, the attached `name`, and the computed
`total_points`. -/
structure LBEntry where
  email : String
  match_points : Nat
  playoff_points : Nat
  finalist_points : Nat
  champion_points : Nat
  meta_total : Nat
  name : Option String
  total_points : Nat
deriving DecidableEq, Repr

/-- A row of the final leaderboard.  (The source's final column selection
additionally drops the `meta_total` column from the display; it is kept
here as it is part of the row the spec describes.) -/
structure LBRow where
  rank : Nat
  name : Option String
  email : String
  match_points : Nat
  playoff_points : Nat
  finalist_points : Nat
  champion_points : Nat
  meta_total : Nat
  total_points : Nat
deriving DecidableEq, Repr

/-- The order of `lb.sort_values(["total_points", "match_points",
"playoff_points"], ascending=[False, False, False])`: lexicographic on the
three columns, each descending. -/
@[reducible] def lb_sort_rel : LBEntry → LBEntry → Prop :=
  onKey (fun r => (r.total_points, (r.match_points, r.playoff_points)))
    (lexRel (flipR natLeR) (lexRel (flipR natLeR) (flipR natLeR)))

/-- The leaderboard row for one email of the outer merge
`match_agg.merge(meta_scores, on="email", how="outer").fillna(0)` followed
by the `users` name merge and the `total_points` column: the match sum
(0 when the email has no match-side row), the meta columns (0 when the
email has no meta-side row), the left-merged name, and
`total_points = match_points + meta_total`. -/
def lb_entry (agg : List (String × Nat)) (meta_scores : List MetaScore)
    (users : List User) (e : String) : LBEntry :=
  let mp := ((agg.find? (fun a => a.1 = e)).map (·.2)).getD 0
  let nm := (users.find? (fun u => u.email = e)).map (·.name)
  match meta_scores.find? (fun m => m.email = e) with
  | some m =>
    { email := e, match_points := mp, playoff_points := m.playoff_points,
      finalist_points := m.finalist_points, champion_points := m.champion_points,
      meta_total := m.meta_total, name := nm, total_points := mp + m.meta_total }
  | none =>
    { email := e, match_points := mp, playoff_points := 0, finalist_points := 0,
      champion_points := 0, meta_total := 0, name := nm, total_points := mp }

/-- The rank assignment of `lb["total_points"].rank(method="min",
ascending=False)` applied to the sorted frame: a row's rank is one plus
the number of rows with strictly greater `total_points`. -/
def lb_rank_rows (sorted : List LBEntry) : List LBRow :=
  sorted.map (fun r =>
    { rank := 1 + (sorted.filter (fun s => r.total_points < s.total_points)).length,
      name := r.name, email := r.email, match_points := r.match_points,
      playoff_points := r.playoff_points, finalist_points := r.finalist_points,
      champion_points := r.champion_points, meta_total := r.meta_total,
      total_points := r.total_points })

/-- `overall_leaderboard`: sums match points per user, outer-merges the
sums with the meta scores on `email` (pandas sorts the union of keys
lexicographically; `fillna(0)` zero-fills whichever side is missing),
left-merges the display name from `users`, computes
`total_points = match_points + meta_total`, sorts by the three-key
descending order, and assigns ranks with "min" tie semantics over
`total_points`. -/
def overall_leaderboard (preds : List MatchPred) (fixtures : List Fixture)
    (results : List ResultRow) (users : List User) (meta : List MetaRow)
    (actual_playoffs actual_finalists : List String)
    (actual_champion : Option String) : List LBRow :=
  let match_scores := compute_match_scores preds fixtures results users
  let meta_scores := compute_meta_scores meta actual_playoffs actual_finalists actual_champion
  let agg := match_agg match_scores
  let emails := sortKeys strLeR (agg.map (·.1) ++ meta_scores.map (·.email))
  let lb : List LBEntry := emails.map (lb_entry agg meta_scores users)
  lb_rank_rows (List.insertionSort lb_sort_rel lb)

/-! ## Weekly winners (`weekly_winners`) -/

/-- A row of the per-user-per-week frame
(`match_scores.groupby(["email", "name", "week"], as_index=False)
["match_points"].sum()`).  The grouped columns are non-null: `groupby`
drops rows with a null key. -/
structure WeeklyRow where
  email : String
  name : String
  week : Int
  match_points : Nat
deriving DecidableEq, Repr

/-- The grouping key of a scored row for the weekly aggregation, `none`
when any key column is null (pandas `groupby` with its default
`dropna=True` drops such rows). -/
def weekly_key (r : ScoredRow) : Option (String × String × Int) :=
  match r.name, r.week with
  | some n, some w => some (r.email, n, w)
  | _, _ => none

/-- Ascending lexicographic order on the `(email, name, week)` keys. -/
@[reducible] def weekly_key_rel :
    (String × String × Int) → (String × String × Int) → Prop :=
  lexRel strLeR (lexRel strLeR intLeR)

/-- The order of `weekly.sort_values(["week", "match_points"],
ascending=[True, False])`. -/
@[reducible] def weekly_totals_rel : WeeklyRow → WeeklyRow → Prop :=
  onKey (fun r => (r.week, r.match_points)) (lexRel intLeR (flipR natLeR))

/-- The grouped row for one `(email, name, week)` key: the sum of
`match_points` over the scored rows with that key. -/
def weekly_group_row (match_scores : List ScoredRow)
    (k : String × String × Int) : WeeklyRow :=
  { email := k.1, name := k.2.1, week := k.2.2,
    match_points := ((match_scores.filter
      (fun r => weekly_key r = some k)).map (·.match_points)).sum }

/-- One entry of the `winners_by_week` mapping: the week's grouped rows
whose total equals the week's maximum (`sub["match_points"].max()`),
sorted ascending by `name`. -/
def week_winner_entry (weekly : List WeeklyRow) (w : Int) :
    Int × List WeeklyRow :=
  let sub := weekly.filter (fun r => r.week = w)
  let top := (sub.map (·.match_points)).foldl max 0
  (w, List.insertionSort (onKey (fun r : WeeklyRow => r.name) strLeR)
    (sub.filter (fun r => r.match_points = top)))

/-- `weekly_winners`: the empty pair when there are no match scores.  When
scores exist but `users` is empty, `compute_match_scores` skipped the name
merge, the frame has no `name` column and `groupby(["email", "name",
"week"])` raises a `KeyError`; that failure is the `.error` case.
Otherwise: group the scored rows by `(email, name, week)` (dropping rows
with a null key) into per-week totals; for each week (ascending), the
winner set is every grouped row whose total equals the week's maximum,
sorted by name; the flat table is the grouped rows sorted by week
ascending then `match_points` descending. -/
def weekly_winners (preds : List MatchPred) (fixtures : List Fixture)
    (results : List ResultRow) (users : List User) :
    Except String (List WeeklyRow × List (Int × List WeeklyRow)) :=
  let match_scores := compute_match_scores preds fixtures results users
  if match_scores.isEmpty then .ok ([], [])
  else if users.isEmpty then .error "KeyError: name"
  else
    let keys := sortKeys weekly_key_rel (match_scores.filterMap weekly_key)
    let weekly : List WeeklyRow := keys.map (weekly_group_row match_scores)
    let weeks := sortKeys intLeR (weekly.map (·.week))
    let winners_by_week := weeks.map (week_winner_entry weekly)
    let weekly_totals := List.insertionSort weekly_totals_rel weekly
    .ok (weekly_totals, winners_by_week)

/-! ## Provenance of the match-scoring rows -/

theorem mem_fixturesWithResults {fixtures : List Fixture} {results : List ResultRow}
    {f : FixtureJoined} (hf : f ∈ fixturesWithResults fixtures results) :
    ∃ fx ∈ fixtures, f.match_id = fx.match_id ∧ f.week = fx.week ∧
      f.winner = (results.find? (fun r => r.match_id = fx.match_id)).map (·.winner) := by
  simp only [fixturesWithResults, List.mem_map] at hf
  obtain ⟨fx, hfx, rfl⟩ := hf
  exact ⟨fx, hfx, rfl, rfl, rfl⟩

theorem mem_pred_rows {fr : List FixtureJoined} {users : List User} {p : MatchPred}
    {r : ScoredRow} (hr : r ∈ pred_rows fr users p) :
    r.email = p.email ∧ r.match_id = p.match_id ∧
    r.predicted_winner = p.predicted_winner ∧
    r.match_points = score_row r.predicted_winner r.winner ∧
    r.name = (users.find? (fun u => u.email = p.email)).map (·.name) ∧
    ((r.week = none ∧ r.winner = none ∧
        fr.filter (fun f => f.match_id = p.match_id) = []) ∨
      ∃ f ∈ fr, f.match_id = p.match_id ∧ r.week = f.week ∧ r.winner = f.winner) := by
  simp only [pred_rows, List.mem_map] at hr
  obtain ⟨wv, hwv, rfl⟩ := hr
  refine ⟨rfl, rfl, rfl, rfl, rfl, ?_⟩
  split at hwv
  · rename_i hms
    simp only [List.mem_singleton] at hwv
    subst hwv
    exact Or.inl ⟨rfl, rfl, List.isEmpty_iff.mp hms⟩
  · simp only [List.mem_map, List.mem_filter, decide_eq_true_eq] at hwv
    obtain ⟨f, ⟨hffr, hfid⟩, rfl⟩ := hwv
    exact Or.inr ⟨f, hffr, hfid, rfl, rfl⟩

theorem mem_compute_match_scores {preds : List MatchPred} {fixtures : List Fixture}
    {results : List ResultRow} {users : List User} {r : ScoredRow}
    (hr : r ∈ compute_match_scores preds fixtures results users) :
    ∃ p ∈ preds, r ∈ pred_rows (fixturesWithResults fixtures results) users p := by
  unfold compute_match_scores at hr
  split at hr
  · simp at hr
  · simpa using List.mem_flatMap.mp hr

/-! ## Sample data, used by the concrete witnesses below -/

def sUsers : List User := [⟨"u1", "Alice"⟩, ⟨"u2", "Bob"⟩]

def sFixtures : List Fixture :=
  [⟨1, "2026-03-21", "CSK", "MI", some 1⟩, ⟨2, "2026-03-22", "CSK", "RCB", none⟩]

def sResults : List ResultRow := [⟨1, "CSK"⟩]

def sPreds : List MatchPred :=
  [⟨"u1", 1, "CSK"⟩, ⟨"u2", 1, "MI"⟩, ⟨"u1", 99, "CSK"⟩, ⟨"u3", 1, "CSK"⟩]

/-! ## C3: per-prediction match points -/

/-- C3.  For every row of the Match Scoring Component's output: the
configured `match_winner` value is 5; when the joined `winner` is null
(no result yet) the row's `match_points` are 0; when a result exists the
points are `match_winner` exactly on exact string equality of
`predicted_winner` and `winner`; and when no result row exists for the
row's `match_id`, the joined `winner` is indeed null. -/
theorem match_points_spec (preds : List MatchPred) (fixtures : List Fixture)
    (results : List ResultRow) (users : List User) (r : ScoredRow)
    (hr : r ∈ compute_match_scores preds fixtures results users) :
    POINTS.match_winner = 5 ∧
    (r.winner = none → r.match_points = 0) ∧
    (∀ w, r.winner = some w →
      r.match_points = if r.predicted_winner = w then POINTS.match_winner else 0) ∧
    ((∀ res ∈ results, res.match_id ≠ r.match_id) → r.winner = none) := by
  obtain ⟨p, hp, hrp⟩ := mem_compute_match_scores hr
  obtain ⟨-, hid, -, hscore, -, hprov⟩ := mem_pred_rows hrp
  refine ⟨rfl, ?_, ?_, ?_⟩
  · intro hw
    rw [hscore, hw]
    rfl
  · intro w hw
    rw [hscore, hw]
    rfl
  · intro hnores
    rcases hprov with ⟨-, hw, -⟩ | ⟨f, hffr, hfid, -, hw⟩
    · exact hw
    · obtain ⟨fx, -, hfxid, -, hwin⟩ := mem_fixturesWithResults hffr
      rw [hw, hwin, List.find?_eq_none.mpr ?_]
      · rfl
      · intro res hres
        simp only [decide_eq_true_eq]
        intro he
        exact hnores res hres (by rw [he, ← hfxid, hfid, hid])

/-! ## C1: predictions with no matching fixture -/

theorem map_match_id_fixturesWithResults (fixtures : List Fixture)
    (results : List ResultRow) :
    (fixturesWithResults fixtures results).map (·.match_id) =
      fixtures.map (·.match_id) := by
  simp [fixturesWithResults, List.map_map, Function.comp]

theorem length_filter_key_le_one {l : List α} {f : α → β} [DecidableEq β]
    (h : (l.map f).Nodup) (k : β) :
    (l.filter (fun x => f x = k)).length ≤ 1 := by
  induction l with
  | nil => simp
  | cons x xs ih =>
    simp only [List.map_cons, List.nodup_cons] at h
    by_cases hx : f x = k
    · rw [List.filter_cons_of_pos (by simpa using hx)]
      have hnil : xs.filter (fun y => f y = k) = [] := by
        rw [List.filter_eq_nil_iff]
        intro y hy
        simp only [decide_eq_true_eq]
        intro hyk
        exact h.1 (List.mem_map.mpr ⟨y, hy, hyk.trans hx.symm⟩)
      simp [hnil]
    · rw [List.filter_cons_of_neg (by simpa using hx)]
      exact ih h.2

theorem pred_rows_length_eq_one {fr : List FixtureJoined} {users : List User}
    (h : (fr.map (·.match_id)).Nodup) (p : MatchPred) :
    (pred_rows fr users p).length = 1 := by
  simp only [pred_rows]
  split
  · rfl
  · rename_i hne
    rw [List.length_map, List.length_map]
    have hle := length_filter_key_le_one (f := fun f : FixtureJoined => f.match_id) h
      p.match_id
    have hpos : 0 < (fr.filter (fun f => f.match_id = p.match_id)).length :=
      List.length_pos.mpr (fun hnil => hne (by simp [hnil]))
    omega

/-- C1 (counterexample).  The claim says a prediction referencing a
non-existent fixture is dropped from the output; but with no fixtures at
all, a single prediction still produces a row: the left merge keeps the
unmatched left row with null `week`/`winner`. -/
theorem match_scores_keep_unmatched_prediction :
    compute_match_scores [⟨"u1", 99, "CSK"⟩] [] [] [] ≠ [] := by decide

/-- C1 (amended).  When fixture `match_id`s are distinct (they are a
primary key), the Match Scoring Component's output has exactly one row per
prediction — including predictions referencing a non-existent fixture,
which are kept (not dropped) with null `week` and `winner` and 0
`match_points`. -/
theorem match_scores_row_per_prediction (preds : List MatchPred)
    (fixtures : List Fixture) (results : List ResultRow) (users : List User)
    (hnodup : (fixtures.map (·.match_id)).Nodup) :
    (compute_match_scores preds fixtures results users).length = preds.length ∧
    ∀ r ∈ compute_match_scores preds fixtures results users,
      (∀ f ∈ fixtures, f.match_id ≠ r.match_id) →
      r.week = none ∧ r.winner = none ∧ r.match_points = 0 := by
  constructor
  · unfold compute_match_scores
    split
    · rename_i hp
      rw [List.isEmpty_iff.mp hp]
      rfl
    · have hnd : ((fixturesWithResults fixtures results).map (·.match_id)).Nodup := by
        rw [map_match_id_fixturesWithResults]
        exact hnodup
      have hone : preds.map
          (List.length ∘ pred_rows (fixturesWithResults fixtures results) users) =
          preds.map (fun _ => 1) :=
        List.map_congr_left (fun p _ => pred_rows_length_eq_one hnd p)
      rw [List.length_flatMap, hone]
      simp
  · intro r hr hnof
    obtain ⟨p, hp, hrp⟩ := mem_compute_match_scores hr
    obtain ⟨-, hid, -, hscore, -, hprov⟩ := mem_pred_rows hrp
    rcases hprov with ⟨hwk, hw, -⟩ | ⟨f, hffr, hfid, -, -⟩
    · refine ⟨hwk, hw, ?_⟩
      rw [hscore, hw]
      rfl
    · obtain ⟨fx, hfx, hfxid, -, -⟩ := mem_fixturesWithResults hffr
      exact absurd (hfxid.symm.trans (hfid.trans hid.symm)) (hnof fx hfx)

/-- Witness for the amended C1 at concrete data. -/
theorem match_scores_row_per_prediction_witness :
    (compute_match_scores sPreds sFixtures sResults sUsers).length =
      sPreds.length ∧
    ∀ r ∈ compute_match_scores sPreds sFixtures sResults sUsers,
      (∀ f ∈ sFixtures, f.match_id ≠ r.match_id) →
      r.week = none ∧ r.winner = none ∧ r.match_points = 0 :=
  match_scores_row_per_prediction sPreds sFixtures sResults sUsers (by decide)

/-- Witness for C3 at concrete data: the first sample prediction's row. -/
theorem match_points_spec_witness :
    POINTS.match_winner = 5 ∧
    ((⟨"u1", 1, "CSK", some 1, some "CSK", 5, some "Alice"⟩ : ScoredRow).winner =
        none →
      (⟨"u1", 1, "CSK", some 1, some "CSK", 5, some "Alice"⟩ : ScoredRow).match_points = 0) ∧
    (∀ w, (⟨"u1", 1, "CSK", some 1, some "CSK", 5, some "Alice"⟩ : ScoredRow).winner =
        some w →
      (⟨"u1", 1, "CSK", some 1, some "CSK", 5, some "Alice"⟩ : ScoredRow).match_points =
        if (⟨"u1", 1, "CSK", some 1, some "CSK", 5, some "Alice"⟩ : ScoredRow).predicted_winner = w
        then POINTS.match_winner else 0) ∧
    ((∀ res ∈ sResults,
        res.match_id ≠ (⟨"u1", 1, "CSK", some 1, some "CSK", 5, some "Alice"⟩ : ScoredRow).match_id) →
      (⟨"u1", 1, "CSK", some 1, some "CSK", 5, some "Alice"⟩ : ScoredRow).winner = none) :=
  match_points_spec sPreds sFixtures sResults sUsers
    ⟨"u1", 1, "CSK", some 1, some "CSK", 5, some "Alice"⟩ (by decide)

/-! ## C4 and C5: meta scoring -/

theorem toFinset_dedup_eq [DecidableEq α] (l : List α) :
    l.dedup.toFinset = l.toFinset := by
  ext a
  simp [List.mem_toFinset, List.mem_dedup]

/-- Summing a constant point value over the distinct predicted teams that
occur among the actuals counts the intersection of the two sets. -/
theorem dedup_filter_mem_length [DecidableEq α] (l t : List α) :
    (l.dedup.filter (fun x => x ∈ t)).length = (l.toFinset ∩ t.toFinset).card := by
  have hnd : (l.dedup.filter (fun x => decide (x ∈ t))).Nodup :=
    (List.nodup_dedup l).filter _
  rw [← List.toFinset_card_of_nodup hnd, List.toFinset_filter, toFinset_dedup_eq]
  congr 1
  rw [Finset.filter_congr (q := fun x => x ∈ t.toFinset)
    (fun x _ => by simp [List.mem_toFinset]), Finset.filter_mem_eq_inter]

theorem champion_if_eq (ch ac : Option String) :
    (if truthy ch && truthy ac && ch == ac then POINTS.champion else 0) =
      if ch ≠ none ∧ ch ≠ some "" ∧ ac ≠ none ∧ ac ≠ some "" ∧ ch = ac
      then POINTS.champion else 0 := by
  rcases ch with _ | s <;> rcases ac with _ | t
  · simp [truthy]
  · simp [truthy]
  · simp [truthy]
  · by_cases hs : s = ""
    · subst hs
      simp [truthy]
    · by_cases hst : s = t
      · subst hst
        simp [truthy, hs]
      · simp [truthy, hs, hst]

def sMetaRow : MetaRow :=
  ⟨"u1", .jsonList ["CSK", "MI", "CSK", "XX"], .jsonList ["CSK"], some "CSK"⟩

def sMetaBad : MetaRow := ⟨"u9", .malformed, .jsonList ["CSK"], some "CSK"⟩

def sMeta : List MetaRow := [sMetaRow, sMetaBad]

/-- C4.  The Meta Scoring Component produces one row per stored
meta-prediction, and on a row whose two team lists parse, the points are:
`playoff_team` times the cardinality of the intersection of the predicted
and actual playoff sets (each correctly named team once), `finalist`
likewise over the finalist sets, `champion` exactly when the predicted and
actual champion are both set (non-null, non-empty) and equal, and
`meta_total` the sum of the three. -/
theorem meta_points_spec (actual_playoffs actual_finalists : List String)
    (actual_champion : Option String) (meta : List MetaRow) :
    compute_meta_scores meta actual_playoffs actual_finalists actual_champion =
      meta.map (calc_row actual_playoffs actual_finalists actual_champion) ∧
    ∀ r : MetaRow, ∀ ps fs : List String,
      json_loads_teams r.playoff_teams = some ps →
      json_loads_teams r.finalists = some fs →
      (calc_row actual_playoffs actual_finalists actual_champion r).playoff_points =
        POINTS.playoff_team * (ps.toFinset ∩ actual_playoffs.toFinset).card ∧
      (calc_row actual_playoffs actual_finalists actual_champion r).finalist_points =
        POINTS.finalist * (fs.toFinset ∩ actual_finalists.toFinset).card ∧
      (calc_row actual_playoffs actual_finalists actual_champion r).champion_points =
        (if r.champion ≠ none ∧ r.champion ≠ some "" ∧ actual_champion ≠ none ∧
            actual_champion ≠ some "" ∧ r.champion = actual_champion
         then POINTS.champion else 0) ∧
      (calc_row actual_playoffs actual_finalists actual_champion r).meta_total =
        (calc_row actual_playoffs actual_finalists actual_champion r).playoff_points +
        (calc_row actual_playoffs actual_finalists actual_champion r).finalist_points +
        (calc_row actual_playoffs actual_finalists actual_champion r).champion_points := by
  constructor
  · unfold compute_meta_scores
    split
    · rename_i h
      rw [List.isEmpty_iff.mp h]
      rfl
    · rfl
  · intro r ps fs hps hfs
    refine ⟨?_, ?_, ?_, rfl⟩
    · simp only [calc_row, hps, hfs]
      rw [dedup_filter_mem_length, Nat.mul_comm]
    · simp only [calc_row, hps, hfs]
      rw [dedup_filter_mem_length, Nat.mul_comm]
    · simp only [calc_row, hps, hfs]
      exact champion_if_eq r.champion actual_champion

/-- Witness for C4 at concrete data: a parsed row with a duplicated
playoff pick, two correct playoff teams, one correct finalist and the
correct champion. -/
theorem meta_points_spec_witness :
    compute_meta_scores sMeta ["CSK", "MI", "KKR", "GT"] ["CSK", "MI"] (some "CSK") =
      sMeta.map (calc_row ["CSK", "MI", "KKR", "GT"] ["CSK", "MI"] (some "CSK")) ∧
    (calc_row ["CSK", "MI", "KKR", "GT"] ["CSK", "MI"] (some "CSK")
        sMetaRow).playoff_points =
      POINTS.playoff_team *
        ((["CSK", "MI", "CSK", "XX"] : List String).toFinset ∩
          (["CSK", "MI", "KKR", "GT"] : List String).toFinset).card ∧
    (calc_row ["CSK", "MI", "KKR", "GT"] ["CSK", "MI"] (some "CSK")
        sMetaRow).champion_points =
      (if sMetaRow.champion ≠ none ∧ sMetaRow.champion ≠ some "" ∧
          (some "CSK" : Option String) ≠ none ∧ (some "CSK" : Option String) ≠ some "" ∧
          sMetaRow.champion = some "CSK"
       then POINTS.champion else 0) := by
  refine ⟨(meta_points_spec ["CSK", "MI", "KKR", "GT"] ["CSK", "MI"] (some "CSK") sMeta).1,
    ?_, ?_⟩
  · exact ((meta_points_spec ["CSK", "MI", "KKR", "GT"] ["CSK", "MI"] (some "CSK")
      sMeta).2 sMetaRow ["CSK", "MI", "CSK", "XX"] ["CSK"] rfl rfl).1
  · exact ((meta_points_spec ["CSK", "MI", "KKR", "GT"] ["CSK", "MI"] (some "CSK")
      sMeta).2 sMetaRow ["CSK", "MI", "CSK", "XX"] ["CSK"] rfl rfl).2.2.1

/-- C5.  The Meta Scoring Component is total — one output row per stored
row, never an error — and a row whose payload fails to parse is scored
with all three predicted values empty: zero points everywhere. -/
theorem meta_malformed_spec (actual_playoffs actual_finalists : List String)
    (actual_champion : Option String) (meta : List MetaRow) :
    compute_meta_scores meta actual_playoffs actual_finalists actual_champion =
      meta.map (calc_row actual_playoffs actual_finalists actual_champion) ∧
    ∀ r : MetaRow,
      (json_loads_teams r.playoff_teams = none ∨ json_loads_teams r.finalists = none) →
      calc_row actual_playoffs actual_finalists actual_champion r =
        { email := r.email, playoff_points := 0, finalist_points := 0,
          champion_points := 0, meta_total := 0 } := by
  constructor
  · unfold compute_meta_scores
    split
    · rename_i h
      rw [List.isEmpty_iff.mp h]
      rfl
    · rfl
  · intro r h
    rcases h with h | h
    · rcases hf : json_loads_teams r.finalists with _ | fs <;>
        simp [calc_row, h, hf, truthy]
    · rcases hp : json_loads_teams r.playoff_teams with _ | ps <;>
        simp [calc_row, h, hp, truthy]

/-- Witness for C5 at concrete data: the malformed sample row scores zero
everywhere. -/
theorem meta_malformed_spec_witness :
    compute_meta_scores sMeta ["CSK", "MI", "KKR", "GT"] ["CSK", "MI"] (some "CSK") =
      sMeta.map (calc_row ["CSK", "MI", "KKR", "GT"] ["CSK", "MI"] (some "CSK")) ∧
    calc_row ["CSK", "MI", "KKR", "GT"] ["CSK", "MI"] (some "CSK") sMetaBad =
      { email := sMetaBad.email, playoff_points := 0, finalist_points := 0,
        champion_points := 0, meta_total := 0 } :=
  ⟨(meta_malformed_spec ["CSK", "MI", "KKR", "GT"] ["CSK", "MI"] (some "CSK") sMeta).1,
    (meta_malformed_spec ["CSK", "MI", "KKR", "GT"] ["CSK", "MI"] (some "CSK")
      sMeta).2 sMetaBad (Or.inl rfl)⟩

/-! ## Leaderboard structure lemmas -/

theorem overall_leaderboard_eq (preds : List MatchPred) (fixtures : List Fixture)
    (results : List ResultRow) (users : List User) (meta : List MetaRow)
    (ap af : List String) (ac : Option String) :
    overall_leaderboard preds fixtures results users meta ap af ac =
      lb_rank_rows (List.insertionSort lb_sort_rel
        ((sortKeys strLeR
          ((match_agg (compute_match_scores preds fixtures results users)).map (·.1) ++
            (compute_meta_scores meta ap af ac).map (·.email))).map
          (lb_entry (match_agg (compute_match_scores preds fixtures results users))
            (compute_meta_scores meta ap af ac) users))) := rfl

theorem lb_entry_email (agg : List (String × Nat)) (ms : List MetaScore)
    (users : List User) (e : String) : (lb_entry agg ms users e).email = e := by
  simp only [lb_entry]
  split <;> rfl

theorem lb_entry_total_eq (agg : List (String × Nat)) (ms : List MetaScore)
    (users : List User) (e : String) :
    (lb_entry agg ms users e).total_points =
      (lb_entry agg ms users e).match_points + (lb_entry agg ms users e).meta_total := by
  simp only [lb_entry]
  split
  · rfl
  · simp

theorem lb_entry_match_points (agg : List (String × Nat)) (ms : List MetaScore)
    (users : List User) (e : String) :
    (lb_entry agg ms users e).match_points =
      ((agg.find? (fun a => a.1 = e)).map (·.2)).getD 0 := by
  simp only [lb_entry]
  split <;> rfl

theorem lb_entry_of_meta_none {ms : List MetaScore} {e : String}
    (agg : List (String × Nat)) (users : List User)
    (h : ms.find? (fun m => m.email = e) = none) :
    (lb_entry agg ms users e).playoff_points = 0 ∧
    (lb_entry agg ms users e).finalist_points = 0 ∧
    (lb_entry agg ms users e).champion_points = 0 ∧
    (lb_entry agg ms users e).meta_total = 0 := by
  simp [lb_entry, h]

theorem map_fst_match_agg (ms : List ScoredRow) :
    (match_agg ms).map (·.1) =
      if ms.isEmpty then [] else sortKeys strLeR (ms.map (·.email)) := by
  unfold match_agg
  split
  · rfl
  · rw [List.map_map]
    have hcomp : ((fun x : String × Nat => x.1) ∘ (fun e : String =>
        (e, ((ms.filter (fun r => r.email = e)).map (·.match_points)).sum))) = id := rfl
    rw [hcomp, List.map_id]

theorem mem_map_fst_match_agg {ms : List ScoredRow} {a : String × Nat}
    (ha : a ∈ match_agg ms) : a.1 ∈ ms.map (·.email) := by
  have h1 : a.1 ∈ (match_agg ms).map (·.1) := List.mem_map_of_mem _ ha
  rw [map_fst_match_agg] at h1
  split at h1
  · simp at h1
  · exact (mem_sortKeys _).mp h1

/-! ## C7: the leaderboard outer join -/

/-- C7.  Every leaderboard row satisfies
`total_points = match_points + meta_total`; an email present in the match
scoring output but not in the meta scoring output still appears, with all
meta fields 0; and an email present in the meta scoring output but not in
the match scoring output appears with `match_points` 0. -/
theorem leaderboard_outer_join_spec (preds : List MatchPred)
    (fixtures : List Fixture) (results : List ResultRow) (users : List User)
    (meta : List MetaRow) (ap af : List String) (ac : Option String) :
    (∀ row ∈ overall_leaderboard preds fixtures results users meta ap af ac,
      row.total_points = row.match_points + row.meta_total) ∧
    (∀ e, e ∈ (compute_match_scores preds fixtures results users).map (·.email) →
      e ∉ (compute_meta_scores meta ap af ac).map (·.email) →
      ∃ row ∈ overall_leaderboard preds fixtures results users meta ap af ac,
        row.email = e ∧ row.playoff_points = 0 ∧ row.finalist_points = 0 ∧
        row.champion_points = 0 ∧ row.meta_total = 0) ∧
    (∀ e, e ∈ (compute_meta_scores meta ap af ac).map (·.email) →
      e ∉ (compute_match_scores preds fixtures results users).map (·.email) →
      ∃ row ∈ overall_leaderboard preds fixtures results users meta ap af ac,
        row.email = e ∧ row.match_points = 0) := by
  refine ⟨?_, ?_, ?_⟩
  · intro row hrow
    rw [overall_leaderboard_eq] at hrow
    unfold lb_rank_rows at hrow
    obtain ⟨r0, hr0, rfl⟩ := List.mem_map.mp hrow
    have hr0m := (List.perm_insertionSort lb_sort_rel _).mem_iff.mp hr0
    obtain ⟨e, -, rfl⟩ := List.mem_map.mp hr0m
    exact lb_entry_total_eq _ _ users e
  · intro e hin hout
    have hne : (compute_match_scores preds fixtures results users).isEmpty = false := by
      obtain ⟨r, hr, -⟩ := List.mem_map.mp hin
      cases h : (compute_match_scores preds fixtures results users).isEmpty
      · rfl
      · rw [List.isEmpty_iff.mp h] at hr
        simp at hr
    have hfst : (match_agg (compute_match_scores preds fixtures results users)).map (·.1) =
        sortKeys strLeR ((compute_match_scores preds fixtures results users).map (·.email)) := by
      rw [map_fst_match_agg, hne]
      rfl
    have he_emails : e ∈ sortKeys strLeR
        ((match_agg (compute_match_scores preds fixtures results users)).map (·.1) ++
          (compute_meta_scores meta ap af ac).map (·.email)) := by
      refine (mem_sortKeys _).mpr (List.mem_append.mpr (Or.inl ?_))
      rw [hfst]
      exact (mem_sortKeys _).mpr hin
    have hfind : (compute_meta_scores meta ap af ac).find? (fun m => m.email = e) = none := by
      refine List.find?_eq_none.mpr (fun m hm => ?_)
      simp only [decide_eq_true_eq]
      intro hme
      exact hout (List.mem_map.mpr ⟨m, hm, hme⟩)
    rw [overall_leaderboard_eq]
    unfold lb_rank_rows
    refine ⟨_, List.mem_map_of_mem _
      ((List.perm_insertionSort lb_sort_rel _).mem_iff.mpr
        (List.mem_map_of_mem _ he_emails)), ?_, ?_, ?_, ?_, ?_⟩
    · exact lb_entry_email _ _ users e
    · exact (lb_entry_of_meta_none _ users hfind).1
    · exact (lb_entry_of_meta_none _ users hfind).2.1
    · exact (lb_entry_of_meta_none _ users hfind).2.2.1
    · exact (lb_entry_of_meta_none _ users hfind).2.2.2
  · intro e hin hout
    have he_emails : e ∈ sortKeys strLeR
        ((match_agg (compute_match_scores preds fixtures results users)).map (·.1) ++
          (compute_meta_scores meta ap af ac).map (·.email)) :=
      (mem_sortKeys _).mpr (List.mem_append.mpr (Or.inr hin))
    have hfind : (match_agg (compute_match_scores preds fixtures results users)).find?
        (fun a => a.1 = e) = none := by
      refine List.find?_eq_none.mpr (fun a ha => ?_)
      simp only [decide_eq_true_eq]
      intro h1
      exact hout (h1 ▸ mem_map_fst_match_agg ha)
    rw [overall_leaderboard_eq]
    unfold lb_rank_rows
    refine ⟨_, List.mem_map_of_mem _
      ((List.perm_insertionSort lb_sort_rel _).mem_iff.mpr
        (List.mem_map_of_mem _ he_emails)), ?_, ?_⟩
    · exact lb_entry_email _ _ users e
    · show (lb_entry _ _ users e).match_points = 0
      rw [lb_entry_match_points, hfind]
      rfl

/-- Witness for C7 at concrete data: `u2` predicted matches but has no
meta prediction; `u9` has a meta prediction but predicted no matches. -/
theorem leaderboard_outer_join_spec_witness :
    (∀ row ∈ overall_leaderboard sPreds sFixtures sResults sUsers sMeta
        ["CSK", "MI", "KKR", "GT"] ["CSK", "MI"] (some "CSK"),
      row.total_points = row.match_points + row.meta_total) ∧
    (∃ row ∈ overall_leaderboard sPreds sFixtures sResults sUsers sMeta
        ["CSK", "MI", "KKR", "GT"] ["CSK", "MI"] (some "CSK"),
      row.email = "u2" ∧ row.playoff_points = 0 ∧ row.finalist_points = 0 ∧
      row.champion_points = 0 ∧ row.meta_total = 0) ∧
    (∃ row ∈ overall_leaderboard sPreds sFixtures sResults sUsers sMeta
        ["CSK", "MI", "KKR", "GT"] ["CSK", "MI"] (some "CSK"),
      row.email = "u9" ∧ row.match_points = 0) :=
  ⟨(leaderboard_outer_join_spec sPreds sFixtures sResults sUsers sMeta
      ["CSK", "MI", "KKR", "GT"] ["CSK", "MI"] (some "CSK")).1,
   (leaderboard_outer_join_spec sPreds sFixtures sResults sUsers sMeta
      ["CSK", "MI", "KKR", "GT"] ["CSK", "MI"] (some "CSK")).2.1 "u2"
      (by decide) (by decide),
   (leaderboard_outer_join_spec sPreds sFixtures sResults sUsers sMeta
      ["CSK", "MI", "KKR", "GT"] ["CSK", "MI"] (some "CSK")).2.2 "u9"
      (by decide) (by decide)⟩

/-! ## C2: rank "min" tie semantics over total_points alone -/

/-- C2.  In the leaderboard, a row's rank is one plus the number of rows
with strictly greater `total_points` ("min" tie semantics with the rank
after a tied group skipping by the group's size), so any two rows with
equal `total_points` share a rank — other columns never split it. -/
theorem rank_min_tie_semantics (preds : List MatchPred) (fixtures : List Fixture)
    (results : List ResultRow) (users : List User) (meta : List MetaRow)
    (ap af : List String) (ac : Option String) :
    (∀ row ∈ overall_leaderboard preds fixtures results users meta ap af ac,
      row.rank = 1 + ((overall_leaderboard preds fixtures results users meta ap af ac).filter
        (fun s => row.total_points < s.total_points)).length) ∧
    (∀ row ∈ overall_leaderboard preds fixtures results users meta ap af ac,
      ∀ row2 ∈ overall_leaderboard preds fixtures results users meta ap af ac,
      row.total_points = row2.total_points → row.rank = row2.rank) := by
  have key : ∀ row ∈ overall_leaderboard preds fixtures results users meta ap af ac,
      row.rank = 1 + ((overall_leaderboard preds fixtures results users meta ap af ac).filter
        (fun s => row.total_points < s.total_points)).length := by
    intro row hrow
    rw [overall_leaderboard_eq] at hrow ⊢
    unfold lb_rank_rows at hrow ⊢
    obtain ⟨r0, hr0, rfl⟩ := List.mem_map.mp hrow
    have hcount : ((List.insertionSort lb_sort_rel
          ((sortKeys strLeR
            ((match_agg (compute_match_scores preds fixtures results users)).map (·.1) ++
              (compute_meta_scores meta ap af ac).map (·.email))).map
            (lb_entry (match_agg (compute_match_scores preds fixtures results users))
              (compute_meta_scores meta ap af ac) users))).map (fun r : LBEntry =>
          ({ rank := 1 + ((List.insertionSort lb_sort_rel
                ((sortKeys strLeR
                  ((match_agg (compute_match_scores preds fixtures results users)).map (·.1) ++
                    (compute_meta_scores meta ap af ac).map (·.email))).map
                  (lb_entry (match_agg (compute_match_scores preds fixtures results users))
                    (compute_meta_scores meta ap af ac) users))).filter
                (fun s => r.total_points < s.total_points)).length,
             name := r.name, email := r.email, match_points := r.match_points,
             playoff_points := r.playoff_points, finalist_points := r.finalist_points,
             champion_points := r.champion_points, meta_total := r.meta_total,
             total_points := r.total_points } : LBRow)) |>.filter
        (fun s => r0.total_points < s.total_points)).length =
        ((List.insertionSort lb_sort_rel
          ((sortKeys strLeR
            ((match_agg (compute_match_scores preds fixtures results users)).map (·.1) ++
              (compute_meta_scores meta ap af ac).map (·.email))).map
            (lb_entry (match_agg (compute_match_scores preds fixtures results users))
              (compute_meta_scores meta ap af ac) users))).filter
          (fun s : LBEntry => r0.total_points < s.total_points)).length := by
      rw [← List.countP_eq_length_filter, ← List.countP_eq_length_filter,
        List.countP_map]
      rfl
    rw [hcount]
  refine ⟨key, fun row hrow row2 hrow2 htot => ?_⟩
  rw [key row hrow, key row2 hrow2, htot]

def rMeta : List MetaRow :=
  [⟨"w1", .jsonList ["A", "B", "C", "D", "E"], .null, none⟩,
   ⟨"w2", .jsonList ["A", "B", "C"], .null, some "X"⟩,
   ⟨"w3", .jsonList ["A", "B", "C", "D"], .null, none⟩]

/-- Witness for C2 at concrete data with totals 50, 50, 40: the two
50-point rows (different `playoff_points`/`champion_points`) share a rank,
and the 40-point row's rank is one plus the number of strictly higher
totals (two), i.e. 3. -/
theorem rank_min_tie_semantics_witness :
    (⟨1, none, "w1", 0, 50, 0, 0, 50, 50⟩ : LBRow).rank =
      (⟨1, none, "w2", 0, 30, 0, 20, 50, 50⟩ : LBRow).rank ∧
    (⟨3, none, "w3", 0, 40, 0, 0, 40, 40⟩ : LBRow).rank =
      1 + ((overall_leaderboard [] [] [] [] rMeta ["A", "B", "C", "D", "E"] []
        (some "X")).filter (fun s =>
          (⟨3, none, "w3", 0, 40, 0, 0, 40, 40⟩ : LBRow).total_points <
            s.total_points)).length :=
  ⟨(rank_min_tie_semantics [] [] [] [] rMeta ["A", "B", "C", "D", "E"] []
      (some "X")).2 ⟨1, none, "w1", 0, 50, 0, 0, 50, 50⟩ (by decide)
      ⟨1, none, "w2", 0, 30, 0, 20, 50, 50⟩ (by decide) rfl,
   (rank_min_tie_semantics [] [] [] [] rMeta ["A", "B", "C", "D", "E"] []
      (some "X")).1 ⟨3, none, "w3", 0, 40, 0, 0, 40, 40⟩ (by decide)⟩

/-! ## C6: leaderboard row order -/

/-- C6.  The leaderboard rows are ordered descending by the tuple
`(total_points, match_points, playoff_points)`: every earlier row either
has strictly more total points, or ties on totals and has strictly more
match points, or ties on both and has at least as many playoff points. -/
theorem leaderboard_sorted_three_keys (preds : List MatchPred)
    (fixtures : List Fixture) (results : List ResultRow) (users : List User)
    (meta : List MetaRow) (ap af : List String) (ac : Option String) :
    List.Pairwise (fun a b : LBRow =>
      b.total_points < a.total_points ∨
      (b.total_points = a.total_points ∧
        (b.match_points < a.match_points ∨
          (b.match_points = a.match_points ∧ b.playoff_points ≤ a.playoff_points))))
      (overall_leaderboard preds fixtures results users meta ap af ac) := by
  rw [overall_leaderboard_eq]
  unfold lb_rank_rows
  refine List.Pairwise.map _ ?_ (List.sorted_insertionSort lb_sort_rel _)
  intro a b hab
  show b.total_points < a.total_points ∨
    (b.total_points = a.total_points ∧
      (b.match_points < a.match_points ∨
        (b.match_points = a.match_points ∧ b.playoff_points ≤ a.playoff_points)))
  rcases hab with ⟨h1, n1⟩ | ⟨e1, ⟨h2, n2⟩ | ⟨e2, h3⟩⟩
  · have h1a : b.total_points ≤ a.total_points := h1
    have n1a : a.total_points ≠ b.total_points := n1
    omega
  · have e1a : a.total_points = b.total_points := e1
    have h2a : b.match_points ≤ a.match_points := h2
    have n2a : a.match_points ≠ b.match_points := n2
    omega
  · have e1a : a.total_points = b.total_points := e1
    have e2a : a.match_points = b.match_points := e2
    have h3a : b.playoff_points ≤ a.playoff_points := h3
    omega

/-! ## C8: weekly winners -/

theorem le_foldl_max (l : List Nat) (a : Nat) : a ≤ l.foldl max a := by
  induction l generalizing a with
  | nil => exact Nat.le_refl a
  | cons x xs ih => exact le_trans (Nat.le_max_left a x) (ih (max a x))

theorem mem_le_foldl_max (l : List Nat) (a : Nat) : ∀ x ∈ l, x ≤ l.foldl max a := by
  induction l generalizing a with
  | nil => simp
  | cons y ys ih =>
    intro x hx
    rcases List.mem_cons.mp hx with rfl | hx
    · exact le_trans (Nat.le_max_right a x) (le_foldl_max ys _)
    · exact ih _ x hx

theorem foldl_max_mem (l : List Nat) (a : Nat) :
    l.foldl max a = a ∨ l.foldl max a ∈ l := by
  induction l generalizing a with
  | nil => exact Or.inl rfl
  | cons x xs ih =>
    rcases ih (max a x) with h | h
    · rw [List.foldl_cons, h]
      rcases max_choice a x with h2 | h2
      · exact Or.inl h2
      · refine Or.inr ?_
        rw [h2]
        exact List.mem_cons_self x xs
    · exact Or.inr (List.mem_cons_of_mem x h)

theorem week_winner_entry_fst (W : List WeeklyRow) (w : Int) :
    (week_winner_entry W w).1 = w := rfl

theorem mem_week_winner_entry {W : List WeeklyRow} {w : Int} {r : WeeklyRow} :
    r ∈ (week_winner_entry W w).2 ↔
      r ∈ W ∧ r.week = w ∧
        r.match_points =
          ((W.filter (fun x => x.week = w)).map (·.match_points)).foldl max 0 := by
  unfold week_winner_entry
  constructor
  · intro hr
    have hr1 := (List.perm_insertionSort
      (onKey (fun x : WeeklyRow => x.name) strLeR) _).mem_iff.mp hr
    simp only [List.mem_filter, decide_eq_true_eq] at hr1
    exact ⟨hr1.1.1, hr1.1.2, hr1.2⟩
  · intro h
    refine (List.perm_insertionSort
      (onKey (fun x : WeeklyRow => x.name) strLeR) _).mem_iff.mpr ?_
    simp only [List.mem_filter, decide_eq_true_eq]
    exact ⟨⟨h.1, h.2.1⟩, h.2.2⟩

theorem week_top_ge {W : List WeeklyRow} {w : Int} {s : WeeklyRow}
    (hs : s ∈ W) (hw : s.week = w) :
    s.match_points ≤
      ((W.filter (fun x => x.week = w)).map (·.match_points)).foldl max 0 :=
  mem_le_foldl_max _ 0 _
    (List.mem_map_of_mem _ (List.mem_filter.mpr ⟨hs, by simp [hw]⟩))

theorem week_top_attained {W : List WeeklyRow} {w : Int} {s : WeeklyRow}
    (hs : s ∈ W) (hw : s.week = w)
    (hmax : ∀ s2 ∈ W, s2.week = w → s2.match_points ≤ s.match_points) :
    s.match_points =
      ((W.filter (fun x => x.week = w)).map (·.match_points)).foldl max 0 := by
  have hle := week_top_ge hs hw
  rcases foldl_max_mem ((W.filter (fun x => x.week = w)).map (·.match_points)) 0
    with h | h
  · omega
  · obtain ⟨s2, hs2, he⟩ := List.mem_map.mp h
    have hs2W := (List.mem_filter.mp hs2).1
    have hs2w : s2.week = w := by
      simpa using (List.mem_filter.mp hs2).2
    have := hmax s2 hs2W hs2w
    omega

theorem week_winner_entry_sorted (W : List WeeklyRow) (w : Int) :
    List.Pairwise (fun a b : WeeklyRow => strLeR a.name b.name)
      (week_winner_entry W w).2 :=
  List.sorted_insertionSort (onKey (fun x : WeeklyRow => x.name) strLeR) _

/-- C8.  When `weekly_winners` succeeds with flat table `wt` and winners
mapping `wbw`: every winner row of a mapped week belongs to the table, has
that week, and attains the week's maximum; every table row of a mapped
week attaining the maximum is in that week's winner set (ties unbroken);
winner sets are sorted ascending by name; a week appears in the mapping
exactly when the table has a row for it (weeks with no scored rows are
absent); and the table is sorted by week ascending then `match_points`
descending. -/
theorem weekly_winners_spec (preds : List MatchPred) (fixtures : List Fixture)
    (results : List ResultRow) (users : List User) (wt : List WeeklyRow)
    (wbw : List (Int × List WeeklyRow))
    (hok : weekly_winners preds fixtures results users = .ok (wt, wbw)) :
    (∀ p ∈ wbw, ∀ r ∈ p.2, r.week = p.1 ∧ r ∈ wt ∧
      ∀ s ∈ wt, s.week = p.1 → s.match_points ≤ r.match_points) ∧
    (∀ p ∈ wbw, ∀ s ∈ wt, s.week = p.1 →
      (∀ s2 ∈ wt, s2.week = p.1 → s2.match_points ≤ s.match_points) → s ∈ p.2) ∧
    (∀ p ∈ wbw, List.Pairwise (fun a b : WeeklyRow => strLeR a.name b.name) p.2) ∧
    (∀ p ∈ wbw, ∃ r ∈ wt, r.week = p.1) ∧
    (∀ r ∈ wt, ∃ p ∈ wbw, p.1 = r.week) ∧
    List.Pairwise (fun a b : WeeklyRow =>
      a.week < b.week ∨ (a.week = b.week ∧ b.match_points ≤ a.match_points)) wt := by
  simp only [weekly_winners] at hok
  split at hok
  · simp only [Except.ok.injEq, Prod.mk.injEq] at hok
    obtain ⟨h1, h2⟩ := hok
    subst h1
    subst h2
    refine ⟨?_, ?_, ?_, ?_, ?_, ?_⟩ <;> simp
  · split at hok
    · simp at hok
    · simp only [Except.ok.injEq, Prod.mk.injEq] at hok
      obtain ⟨h1, h2⟩ := hok
      subst h1
      subst h2
      set ms := compute_match_scores preds fixtures results users with hms
      set keys := sortKeys weekly_key_rel (ms.filterMap weekly_key) with hkeys
      set W := keys.map (weekly_group_row ms) with hW
      have hperm : (List.insertionSort weekly_totals_rel W).Perm W :=
        List.perm_insertionSort _ _
      refine ⟨?_, ?_, ?_, ?_, ?_, ?_⟩
      · intro p hp r hr
        obtain ⟨w, hwmem, rfl⟩ := List.mem_map.mp hp
        obtain ⟨hrW, hrw, hrtop⟩ := mem_week_winner_entry.mp hr
        refine ⟨hrw, hperm.mem_iff.mpr hrW, fun s hs hsw => ?_⟩
        rw [hrtop]
        exact week_top_ge (hperm.mem_iff.mp hs) hsw
      · intro p hp s hswt hsw hmax
        obtain ⟨w, hwmem, rfl⟩ := List.mem_map.mp hp
        refine mem_week_winner_entry.mpr ⟨hperm.mem_iff.mp hswt, hsw, ?_⟩
        exact week_top_attained (hperm.mem_iff.mp hswt) hsw
          (fun s2 hs2 h2w => hmax s2 (hperm.mem_iff.mpr hs2) h2w)
      · intro p hp
        obtain ⟨w, -, rfl⟩ := List.mem_map.mp hp
        exact week_winner_entry_sorted W w
      · intro p hp
        obtain ⟨w, hwmem, rfl⟩ := List.mem_map.mp hp
        have hw : w ∈ W.map (·.week) := (mem_sortKeys _).mp hwmem
        obtain ⟨r, hrW, hre⟩ := List.mem_map.mp hw
        exact ⟨r, hperm.mem_iff.mpr hrW, hre⟩
      · intro r hrwt
        have hrW := hperm.mem_iff.mp hrwt
        have hwk : r.week ∈ sortKeys intLeR (W.map (·.week)) :=
          (mem_sortKeys _).mpr (List.mem_map_of_mem _ hrW)
        exact ⟨week_winner_entry W r.week, List.mem_map_of_mem _ hwk, rfl⟩
      · refine (List.sorted_insertionSort weekly_totals_rel W).imp ?_
        intro a b hab
        rcases hab with ⟨h1, n1⟩ | ⟨e1, h2⟩
        · have h1a : a.week ≤ b.week := h1
          have n1a : a.week ≠ b.week := n1
          omega
        · have e1a : a.week = b.week := e1
          have h2a : b.match_points ≤ a.match_points := h2
          exact Or.inr ⟨e1a, h2a⟩

/-- Witness for C8 at concrete data: week 1 has two scored users; the
winner set is the single maximal row. -/
theorem weekly_winners_spec_witness :
    (∀ p ∈ [((1 : Int), [(⟨"u1", "Alice", 1, 5⟩ : WeeklyRow)])], ∀ r ∈ p.2,
      r.week = p.1 ∧
      r ∈ [(⟨"u1", "Alice", 1, 5⟩ : WeeklyRow), ⟨"u2", "Bob", 1, 0⟩] ∧
      ∀ s ∈ [(⟨"u1", "Alice", 1, 5⟩ : WeeklyRow), ⟨"u2", "Bob", 1, 0⟩],
        s.week = p.1 → s.match_points ≤ r.match_points) ∧
    (∀ p ∈ [((1 : Int), [(⟨"u1", "Alice", 1, 5⟩ : WeeklyRow)])],
      ∀ s ∈ [(⟨"u1", "Alice", 1, 5⟩ : WeeklyRow), ⟨"u2", "Bob", 1, 0⟩],
      s.week = p.1 →
      (∀ s2 ∈ [(⟨"u1", "Alice", 1, 5⟩ : WeeklyRow), ⟨"u2", "Bob", 1, 0⟩],
        s2.week = p.1 → s2.match_points ≤ s.match_points) → s ∈ p.2) ∧
    (∀ p ∈ [((1 : Int), [(⟨"u1", "Alice", 1, 5⟩ : WeeklyRow)])],
      List.Pairwise (fun a b : WeeklyRow => strLeR a.name b.name) p.2) ∧
    (∀ p ∈ [((1 : Int), [(⟨"u1", "Alice", 1, 5⟩ : WeeklyRow)])],
      ∃ r ∈ [(⟨"u1", "Alice", 1, 5⟩ : WeeklyRow), ⟨"u2", "Bob", 1, 0⟩],
        r.week = p.1) ∧
    (∀ r ∈ [(⟨"u1", "Alice", 1, 5⟩ : WeeklyRow), ⟨"u2", "Bob", 1, 0⟩],
      ∃ p ∈ [((1 : Int), [(⟨"u1", "Alice", 1, 5⟩ : WeeklyRow)])], p.1 = r.week) ∧
    List.Pairwise (fun a b : WeeklyRow =>
      a.week < b.week ∨ (a.week = b.week ∧ b.match_points ≤ a.match_points))
      [(⟨"u1", "Alice", 1, 5⟩ : WeeklyRow), ⟨"u2", "Bob", 1, 0⟩] :=
  weekly_winners_spec sPreds sFixtures sResults sUsers
    [⟨"u1", "Alice", 1, 5⟩, ⟨"u2", "Bob", 1, 0⟩]
    [(1, [⟨"u1", "Alice", 1, 5⟩])] rfl

/-! ## C10: the weekly aggregation drops rows with a null grouping key -/

theorem compute_match_scores_eq_flatMap (preds : List MatchPred)
    (fixtures : List Fixture) (results : List ResultRow) (users : List User) :
    compute_match_scores preds fixtures results users =
      preds.flatMap (pred_rows (fixturesWithResults fixtures results) users) := by
  unfold compute_match_scores
  split
  · rename_i h
    rw [List.isEmpty_iff.mp h]
    rfl
  · rfl

theorem weekly_group_row_congr {ms1 ms2 : List ScoredRow}
    (h : ∀ k, ms1.filter (fun r => weekly_key r = some k) =
      ms2.filter (fun r => weekly_key r = some k)) :
    weekly_group_row ms1 = weekly_group_row ms2 :=
  funext (fun k => by unfold weekly_group_row; rw [h k])

/-- The weekly aggregation only consumes the scored rows through their
grouping keys and per-key row sets, so two prediction lists producing the
same keyed rows produce the same weekly output. -/
theorem weekly_winners_congr (preds1 preds2 : List MatchPred)
    (fixtures : List Fixture) (results : List ResultRow) (users : List User)
    (husers : users ≠ [])
    (hkeys : (compute_match_scores preds1 fixtures results users).filterMap weekly_key =
      (compute_match_scores preds2 fixtures results users).filterMap weekly_key)
    (hfil : ∀ k, (compute_match_scores preds1 fixtures results users).filter
        (fun r => weekly_key r = some k) =
      (compute_match_scores preds2 fixtures results users).filter
        (fun r => weekly_key r = some k)) :
    weekly_winners preds1 fixtures results users =
      weekly_winners preds2 fixtures results users := by
  have husers' : users.isEmpty = false := by
    cases users
    · exact absurd rfl husers
    · rfl
  have hgrow := weekly_group_row_congr hfil
  by_cases h1 : (compute_match_scores preds1 fixtures results users).isEmpty = true <;>
    by_cases h2 : (compute_match_scores preds2 fixtures results users).isEmpty = true
  · simp [weekly_winners, h1, h2]
  · have hms1 : compute_match_scores preds1 fixtures results users = [] :=
      List.isEmpty_iff.mp h1
    rw [hms1] at hkeys
    simp only [List.filterMap_nil] at hkeys
    simp only [weekly_winners, h1, h2, husers', if_true, if_false,
      Bool.false_eq_true]
    rw [← hkeys]
    rfl
  · have hms2 : compute_match_scores preds2 fixtures results users = [] :=
      List.isEmpty_iff.mp h2
    rw [hms2] at hkeys
    simp only [List.filterMap_nil] at hkeys
    simp only [weekly_winners, h1, h2, husers', if_true, if_false,
      Bool.false_eq_true]
    rw [hkeys]
    rfl
  · simp only [weekly_winners, h1, h2, husers', if_true, if_false,
      Bool.false_eq_true]
    rw [hkeys, hgrow]

/-- C10.  The Weekly Aggregator silently ignores every prediction whose
grouped key is incomplete: removing from the prediction list a prediction
all of whose joined rows have a null `week` (its fixture's week is null,
or no fixture matches it at all) or whose email matches no user (null
`name`) leaves both the per-user-per-week table and the winners mapping
unchanged, because grouping drops rows with a null key.  (`users` must be
non-empty: with an empty user table the weekly computation fails before
grouping.) -/
theorem weekly_drops_null_key_rows (l1 l2 : List MatchPred) (p : MatchPred)
    (fixtures : List Fixture) (results : List ResultRow) (users : List User)
    (husers : users ≠ [])
    (hp : (∀ f ∈ fixtures, f.match_id = p.match_id → f.week = none) ∨
      users.find? (fun u => u.email = p.email) = none) :
    weekly_winners (l1 ++ p :: l2) fixtures results users =
      weekly_winners (l1 ++ l2) fixtures results users := by
  have hpnone : ∀ r ∈ pred_rows (fixturesWithResults fixtures results) users p,
      weekly_key r = none := by
    intro r hr
    obtain ⟨-, hid, -, -, hname, hprov⟩ := mem_pred_rows hr
    rcases hp with hp | hp
    · have hwk : r.week = none := by
        rcases hprov with ⟨hwk, -, -⟩ | ⟨f, hffr, hfid, hwk, -⟩
        · exact hwk
        · obtain ⟨fx, hfx, hfxid, hfxwk, -⟩ := mem_fixturesWithResults hffr
          rw [hwk, hfxwk]
          exact hp fx hfx (hfxid ▸ hfid)
      rcases hn : r.name with _ | n <;> simp [weekly_key, hwk, hn]
    · have hname' : r.name = none := by
        rw [hname, hp]
        rfl
      rcases hw : r.week with _ | w <;> simp [weekly_key, hname', hw]
  refine weekly_winners_congr _ _ fixtures results users husers ?_ ?_
  · rw [compute_match_scores_eq_flatMap, compute_match_scores_eq_flatMap,
      List.flatMap_append, List.flatMap_cons, List.flatMap_append,
      List.filterMap_append, List.filterMap_append, List.filterMap_append]
    have hP : (pred_rows (fixturesWithResults fixtures results) users p).filterMap
        weekly_key = [] :=
      List.filterMap_eq_nil_iff.mpr hpnone
    rw [hP]
    rfl
  · intro k
    rw [compute_match_scores_eq_flatMap, compute_match_scores_eq_flatMap,
      List.flatMap_append, List.flatMap_cons, List.flatMap_append,
      List.filter_append, List.filter_append, List.filter_append]
    have hP : (pred_rows (fixturesWithResults fixtures results) users p).filter
        (fun r => weekly_key r = some k) = [] := by
      rw [List.filter_eq_nil_iff]
      intro r hr
      simp [hpnone r hr]
    rw [hP]
    rfl

/-- Witness for C10 at concrete data: dropping the prediction for the
non-existent match 99 leaves the weekly output unchanged. -/
theorem weekly_drops_null_key_rows_witness :
    weekly_winners ([⟨"u1", 1, "CSK"⟩, ⟨"u2", 1, "MI"⟩] ++
        (⟨"u1", 99, "CSK"⟩ : MatchPred) :: [⟨"u3", 1, "CSK"⟩])
      sFixtures sResults sUsers =
    weekly_winners ([⟨"u1", 1, "CSK"⟩, ⟨"u2", 1, "MI"⟩] ++ [⟨"u3", 1, "CSK"⟩])
      sFixtures sResults sUsers :=
  weekly_drops_null_key_rows [⟨"u1", 1, "CSK"⟩, ⟨"u2", 1, "MI"⟩]
    [⟨"u3", 1, "CSK"⟩] ⟨"u1", 99, "CSK"⟩ sFixtures sResults sUsers
    (by decide) (Or.inl (by decide))

/-! ## C9: input row order does not matter -/

theorem perm_isEmpty_eq {l l' : List α} (h : l.Perm l') : l.isEmpty = l'.isEmpty := by
  have hlen := h.length_eq
  cases l <;> cases l' <;> simp_all

theorem pred_rows_perm_fixtures (results : List ResultRow) (users : List User)
    {fixtures fixtures' : List Fixture} (hf : fixtures.Perm fixtures')
    (p : MatchPred) :
    (pred_rows (fixturesWithResults fixtures results) users p).Perm
      (pred_rows (fixturesWithResults fixtures' results) users p) := by
  have hms : ((fixturesWithResults fixtures results).filter
      (fun f => f.match_id = p.match_id)).Perm
      ((fixturesWithResults fixtures' results).filter
        (fun f => f.match_id = p.match_id)) :=
    (hf.map _).filter _
  simp only [pred_rows]
  by_cases he : ((fixturesWithResults fixtures results).filter
      (fun f => f.match_id = p.match_id)).isEmpty = true
  · rw [if_pos he, if_pos (perm_isEmpty_eq hms ▸ he)]
  · rw [if_neg he, if_neg (fun hh => he ((perm_isEmpty_eq hms).trans hh))]
    exact (hms.map _).map _

theorem compute_match_scores_perm (results : List ResultRow) (users : List User)
    {preds preds' : List MatchPred} {fixtures fixtures' : List Fixture}
    (hp : preds.Perm preds') (hf : fixtures.Perm fixtures') :
    (compute_match_scores preds fixtures results users).Perm
      (compute_match_scores preds' fixtures' results users) := by
  rw [compute_match_scores_eq_flatMap, compute_match_scores_eq_flatMap]
  exact (hp.flatMap_right _).trans
    (List.Perm.flatMap_left preds' (fun a _ => pred_rows_perm_fixtures results users hf a))

theorem match_agg_perm {ms ms' : List ScoredRow} (h : ms.Perm ms') :
    match_agg ms = match_agg ms' := by
  unfold match_agg
  have hiso := perm_isEmpty_eq h
  by_cases h1 : ms.isEmpty = true
  · rw [if_pos h1, if_pos (hiso ▸ h1)]
  · rw [if_neg h1, if_neg (fun hh => h1 (hiso.trans hh))]
    rw [sortKeys_congr strLeR (h.map _)]
    refine List.map_congr_left (fun e _ => ?_)
    exact congrArg (fun s => (e, s)) (List.Perm.sum_eq ((h.filter _).map _))

theorem find?_eq_of_perm_of_le_one {l l' : List α} {p : α → Bool}
    (h : l.Perm l') (hu : (l.filter p).length ≤ 1) : l.find? p = l'.find? p := by
  rw [← List.filter_head? p l, ← List.filter_head? p l']
  congr 1
  have hperm := h.filter p
  rcases hl : l.filter p with _ | ⟨a, rest⟩
  · rw [hl] at hperm
    exact hperm.symm.eq_nil.symm
  · rw [hl] at hperm hu
    cases rest with
    | nil => exact (List.perm_singleton.mp hperm.symm).symm
    | cons b t => simp at hu

theorem compute_meta_scores_perm (ap af : List String) (ac : Option String)
    {meta meta' : List MetaRow} (h : meta.Perm meta') :
    (compute_meta_scores meta ap af ac).Perm (compute_meta_scores meta' ap af ac) := by
  unfold compute_meta_scores
  have hiso := perm_isEmpty_eq h
  by_cases h1 : meta.isEmpty = true
  · rw [if_pos h1, if_pos (hiso ▸ h1)]
  · rw [if_neg h1, if_neg (fun hh => h1 (hiso.trans hh))]
    exact h.map _

theorem map_email_compute_meta_scores (meta : List MetaRow) (ap af : List String)
    (ac : Option String) :
    (compute_meta_scores meta ap af ac).map (·.email) = meta.map (·.email) := by
  unfold compute_meta_scores
  split
  · rename_i h1
    rw [List.isEmpty_iff.mp h1]
    rfl
  · rw [List.map_map]
    exact List.map_congr_left (fun r _ => rfl)

/-- C9.  Permuting the input rows — match predictions, fixtures, and
meta predictions (whose emails are distinct, being a primary key) — leaves
both the Leaderboard Aggregator's output and the Weekly Aggregator's
output unchanged, row order included: all grouping, joining and sorting is
key-based and explicit, never input-order-dependent. -/
theorem aggregator_permutation_invariant (preds preds' : List MatchPred)
    (fixtures fixtures' : List Fixture) (results : List ResultRow)
    (users : List User) (meta meta' : List MetaRow) (ap af : List String)
    (ac : Option String) (hp : preds.Perm preds') (hf : fixtures.Perm fixtures')
    (hm : meta.Perm meta') (hnd : (meta.map (·.email)).Nodup) :
    overall_leaderboard preds fixtures results users meta ap af ac =
      overall_leaderboard preds' fixtures' results users meta' ap af ac ∧
    weekly_winners preds fixtures results users =
      weekly_winners preds' fixtures' results users := by
  have hms := compute_match_scores_perm results users hp hf
  constructor
  · have hmse := compute_meta_scores_perm ap af ac hm
    rw [overall_leaderboard_eq, overall_leaderboard_eq, match_agg_perm hms]
    have hemails : sortKeys strLeR
        ((match_agg (compute_match_scores preds' fixtures' results users)).map (·.1) ++
          (compute_meta_scores meta ap af ac).map (·.email)) =
        sortKeys strLeR
          ((match_agg (compute_match_scores preds' fixtures' results users)).map (·.1) ++
            (compute_meta_scores meta' ap af ac).map (·.email)) :=
      sortKeys_congr _ (List.Perm.append_left _ (hmse.map _))
    have hent : lb_entry (match_agg (compute_match_scores preds' fixtures' results users))
        (compute_meta_scores meta ap af ac) users =
        lb_entry (match_agg (compute_match_scores preds' fixtures' results users))
          (compute_meta_scores meta' ap af ac) users := by
      funext e
      have hle : ((compute_meta_scores meta ap af ac).filter
          (fun m => m.email = e)).length ≤ 1 := by
        refine length_filter_key_le_one (f := fun m : MetaScore => m.email) ?_ e
        rw [map_email_compute_meta_scores]
        exact hnd
      unfold lb_entry
      rw [find?_eq_of_perm_of_le_one hmse hle]
    rw [hemails, hent]
  · simp only [weekly_winners]
    have hiso := perm_isEmpty_eq hms
    by_cases h1 : (compute_match_scores preds fixtures results users).isEmpty = true
    · rw [if_pos h1, if_pos (hiso ▸ h1)]
    · rw [if_neg h1, if_neg (fun hh => h1 (hiso.trans hh))]
      by_cases hu : users.isEmpty = true
      · rw [if_pos hu, if_pos hu]
      · rw [if_neg hu, if_neg hu]
        have hkeys : sortKeys weekly_key_rel
            ((compute_match_scores preds fixtures results users).filterMap weekly_key) =
            sortKeys weekly_key_rel
              ((compute_match_scores preds' fixtures' results users).filterMap
                weekly_key) :=
          sortKeys_congr _ (hms.filterMap _)
        have hgrow : weekly_group_row (compute_match_scores preds fixtures results users) =
            weekly_group_row (compute_match_scores preds' fixtures' results users) :=
          funext (fun k => by
            unfold weekly_group_row
            rw [List.Perm.sum_eq ((hms.filter _).map _)])
        rw [hkeys, hgrow]

/-- Witness for C9 at concrete data: reversing the predictions, the
fixtures and the meta predictions changes neither aggregator output. -/
theorem aggregator_permutation_invariant_witness :
    overall_leaderboard sPreds sFixtures sResults sUsers sMeta
        ["CSK", "MI", "KKR", "GT"] ["CSK", "MI"] (some "CSK") =
      overall_leaderboard sPreds.reverse sFixtures.reverse sResults sUsers
        sMeta.reverse ["CSK", "MI", "KKR", "GT"] ["CSK", "MI"] (some "CSK") ∧
    weekly_winners sPreds sFixtures sResults sUsers =
      weekly_winners sPreds.reverse sFixtures.reverse sResults sUsers :=
  aggregator_permutation_invariant sPreds sPreds.reverse sFixtures
    sFixtures.reverse sResults sUsers sMeta sMeta.reverse
    ["CSK", "MI", "KKR", "GT"] ["CSK", "MI"] (some "CSK")
    (by decide) (by decide) (by decide) (by decide)

end IPL
